import Mathlib

/-!
# SocketChat server — shallow embedding

A shallow embedding of the state-holding parts of `server.js` (the Socket.io
chat relay) and of `handleStartChat` in `src/screens/UsersScreen.tsx`.

JavaScript `Map`s (`connectedUsers`, `chatRooms`, `groupChats`) are embedded as
insertion-ordered association lists `List (String × α)` with `Map.get`,
`Map.set`, `Map.has`, `Map.delete` semantics (a `set` on an existing key
updates the entry in place, preserving its position; `forEach` iterates in
insertion order, so the common pattern

```js
connectedUsers.forEach((user, socketId) => { if (user.id === x) found = socketId })
```

yields the *last* matching entry).  The Socket.io room adapter
(`io.sockets.adapter.rooms`) is embedded as an association list from room id to
the list of joined socket ids; an empty room is absent from the adapter, which
matches Socket.io (a room is dropped when its last socket leaves), so
`rooms.get(id)` being falsy coincides with `mapGet … = none`.  The set of live
sockets (`io.sockets.sockets`) is a list of socket ids.  Timestamps
(`new Date()` / `Date.now()`) are threaded in as a `Nat` parameter `now`.
Every handler returns the new server state together with the ordered list of
`emit` calls it performed.
-/

namespace SocketChat

/-! ## JavaScript string primitives

The JS string methods the server uses (`trim`, `startsWith`, `includes`,
`split`, and the default `Array.sort` comparison) are embedded as
structurally recursive functions on the underlying character list, so that
every definition in this file evaluates by kernel reduction. -/

/-- `s.trim()`: strip leading and trailing whitespace. -/
def jsTrim (s : String) : String :=
  ⟨((s.data.dropWhile Char.isWhitespace).reverse.dropWhile
      Char.isWhitespace).reverse⟩

/-- `s.startsWith(pre)`. -/
def strStartsWith (s pre : String) : Bool :=
  pre.data.isPrefixOf s.data

/-- `s.includes(c)` for a one-character needle. -/
def strContainsChar (s : String) (c : Char) : Bool :=
  s.data.contains c

/-- Splitting a character list at every occurrence of `c`
(`"a--b" ↦ ["a", "", "b"]`, like JS `split`). -/
def splitOnCharList (c : Char) : List Char → List (List Char)
  | [] => [[]]
  | x :: xs =>
    match splitOnCharList c xs with
    | [] => if x == c then [[], []] else [[x]]
    | h :: t => if x == c then [] :: h :: t else (x :: h) :: t

/-- `s.split('-')`. -/
def splitOnDash (s : String) : List String :=
  (splitOnCharList '-' s.data).map (fun l => ⟨l⟩)

/-- Lexicographic order on character lists by code point — the comparison
underlying the default JS `Array.sort` on strings. -/
def charListLe : List Char → List Char → Bool
  | [], _ => true
  | _ :: _, [] => false
  | a :: as, b :: bs =>
    if a.toNat < b.toNat then true
    else if b.toNat < a.toNat then false
    else charListLe as bs

/-- `a <= b` as JS default string sort compares the two. -/
def strLe (a b : String) : Bool :=
  charListLe a.data b.data

/-- A value in the `connectedUsers` map (`server.js` lines 130–135). -/
structure UserInfo where
  id : String
  username : String
  socketId : String
  joinedAt : Nat
  deriving Repr, DecidableEq

/-- One entry of a group `members` array: `{ id, username }`. -/
structure Member where
  id : String
  username : String
  deriving Repr, DecidableEq

/-- A value in the `groupChats` map (`server.js` lines 222–231). -/
structure GroupChat where
  id : String
  name : String
  createdBy : String
  createdAt : Nat
  members : List Member
  deriving Repr, DecidableEq

/-- The payload of a `message` event (the fields the server reads).
An absent/undefined `chatId` is `none`; absent strings are `""`. -/
structure MessageData where
  chatId : Option String
  username : String
  userId : String
  text : String
  deriving Repr, DecidableEq

/-- A value in the `chatRooms` map (`server.js` lines 189–195); `messages`
is the lazily-created history array (lines 461–468), embedded as always
present and initially empty. -/
structure ChatRoom where
  id : String
  isGroup : Bool
  name : String
  createdAt : Nat
  members : List Member
  messages : List MessageData
  deriving Repr, DecidableEq

/-! ## JavaScript `Map` operations on association lists -/

/-- `m.get(k)` (first entry with key `k`; keys are unique in a JS `Map`). -/
def mapGet {α : Type} (m : List (String × α)) (k : String) : Option α :=
  (m.find? (fun p => p.1 == k)).map (fun p => p.2)

/-- `m.has(k)`. -/
def mapHas {α : Type} (m : List (String × α)) (k : String) : Bool :=
  m.any (fun p => p.1 == k)

/-- `m.set(k, v)`: update in place if the key is present (keeping its
insertion position), else append. -/
def mapSet {α : Type} (m : List (String × α)) (k : String) (v : α) :
    List (String × α) :=
  if mapHas m k then m.map (fun p => if p.1 == k then (k, v) else p)
  else m ++ [(k, v)]

/-- `m.delete(k)`. -/
def mapDelete {α : Type} (m : List (String × α)) (k : String) :
    List (String × α) :=
  m.filter (fun p => !(p.1 == k))

/-! ## The Socket.io room adapter -/

/-- The socket ids currently in room `chatId` (empty list when the adapter
has no such room). -/
def roomMembers (rooms : List (String × List String)) (chatId : String) :
    List String :=
  (mapGet rooms chatId).getD []

/-- `socket.join(chatId)`: idempotent; creates the room on first join. -/
def roomJoin (rooms : List (String × List String)) (chatId sid : String) :
    List (String × List String) :=
  match mapGet rooms chatId with
  | none => rooms ++ [(chatId, [sid])]
  | some l => if l.contains sid then rooms else mapSet rooms chatId (l ++ [sid])

/-- Removing a socket from every room on disconnect; a room emptied this way
is dropped from the adapter. -/
def removeSocketFromRooms (rooms : List (String × List String)) (sid : String) :
    List (String × List String) :=
  (rooms.map (fun p => (p.1, p.2.filter (fun s => !(s == sid))))).filter
    (fun p => !p.2.isEmpty)

/-! ## Server state -/

/-- The global mutable state of `server.js`: the three `Map`s, the room
adapter, and the set of live sockets. -/
structure ServerState where
  connectedUsers : List (String × UserInfo)
  chatRooms : List (String × ChatRoom)
  groupChats : List (String × GroupChat)
  rooms : List (String × List String)
  sockets : List String
  deriving Repr, DecidableEq

/-- The state at server start: every registry empty. -/
def emptyState : ServerState :=
  { connectedUsers := [], chatRooms := [], groupChats := [], rooms := [],
    sockets := [] }

/-- The `connectedUsers.forEach` scan that records the last socket id whose
user has the given `userId` (used at lines 107–112, 241–245, 282–287,
319–323, 436–440, 610–614 of `server.js`). -/
def findLastSocketId (cu : List (String × UserInfo)) (uid : String) :
    Option String :=
  ((cu.filter (fun p => p.2.id == uid)).getLast?).map (fun p => p.1)

/-- Resolving a member's user id to a *live* socket: the `forEach` scan
followed by `io.sockets.sockets.get(memberSocketId)`. -/
def resolveMemberSocket (st : ServerState) (uid : String) : Option String :=
  match findLastSocketId st.connectedUsers uid with
  | none => none
  | some s => if st.sockets.contains s then some s else none

/-! ## Emitted events -/

/-- Payload of one entry of an `availableGroups` / group summary emission. -/
structure GroupSummary where
  chatId : String
  name : String
  members : List Member
  createdBy : String
  deriving Repr, DecidableEq

/-- Payload of one entry of an `onlineUsers` emission. -/
structure OnlineUser where
  id : String
  username : String
  deriving Repr, DecidableEq

/-- Every `emit` the embedded handlers perform, tagged with its target:
a single socket, a room minus one socket (`socket.to(room).emit`), or a
global broadcast minus the sender (`socket.broadcast.emit`). -/
inductive Emit where
  | errorMsg (sid : String) (message : String) (etype : Option String)
  | userJoinedGlobal (exceptSid : String) (username : String)
  | onlineUsers (users : List OnlineUser)
  | availableGroups (sid : String) (groups : List GroupSummary)
  | newGroupChat (sid : String) (chatId name createdBy : String)
      (members : List Member)
  | groupChatCreated (sid : String) (chatId groupName createdBy : String)
      (members : List Member)
  | userJoinedRoom (chatId : String) (exceptSid : String) (username : String)
  | message (sid : String) (msg : MessageData)
  | roomMessage (chatId : String) (exceptSid : String) (msg : MessageData)
  | broadcastMessage (exceptSid : String) (msg : MessageData)
  | groupInfo (sid : String) (chatId name createdBy : String)
      (createdAt : Nat) (members : List Member)
  | groupDeleted (sid : String) (chatId groupName deletedBy : String)
  | groupDeleteSuccess (sid : String) (chatId groupName : String)
  deriving Repr, DecidableEq

/-! ## `join` handler (`server.js` lines 96–175) -/

/-- The `onlineUsers` payload: all connected users with a non-blank name
(lines 143–149). -/
def onlineUsersOf (cu : List (String × UserInfo)) : List OnlineUser :=
  ((cu.map (fun p => p.2)).filter (fun u => !((jsTrim u.username) == ""))).map
    (fun u => { id := u.id, username := (jsTrim u.username) })

/-- The `availableGroups` payload: summaries of every group whose member set
contains the user (lines 154–164). -/
def userGroupsOf (gc : List (String × GroupChat)) (userId : String) :
    List GroupSummary :=
  (gc.filter (fun p => p.2.members.any (fun m => m.id == userId))).map
    (fun p => { chatId := p.1, name := p.2.name,
                members := p.2.members.filter (fun m => !((jsTrim m.username) == "")),
                createdBy := p.2.createdBy })

/-- `socket.on('join')`: validate, take over any previous session of the
same `userId` (delete its registry entry and force-disconnect its socket),
store the new session, broadcast presence, and hand the user their group
list (joining them to each of those rooms). -/
def joinHandler (st : ServerState) (sid userId username : String) (now : Nat) :
    ServerState × List Emit :=
  if userId == "" || (jsTrim username) == "" then
    (st, [Emit.errorMsg sid "Invalid user data" none])
  else
    let st1 :=
      match findLastSocketId st.connectedUsers userId with
      | some esid =>
        if esid == sid then st
        else
          { st with connectedUsers := mapDelete st.connectedUsers esid,
                    sockets := st.sockets.filter (fun s => !(s == esid)),
                    rooms := if st.sockets.contains esid then
                        removeSocketFromRooms st.rooms esid
                      else st.rooms }
      | none => st
    let newUser : UserInfo :=
      { id := userId, username := (jsTrim username), socketId := sid,
        joinedAt := now }
    let st2 := { st1 with connectedUsers := mapSet st1.connectedUsers sid newUser }
    let userGroups := userGroupsOf st2.groupChats userId
    let st3 := { st2 with
      rooms := userGroups.foldl (fun rs g => roomJoin rs g.chatId sid) st2.rooms }
    (st3,
      [Emit.userJoinedGlobal sid (jsTrim username),
       Emit.onlineUsers (onlineUsersOf st2.connectedUsers)] ++
      (if userGroups.isEmpty then [] else [Emit.availableGroups sid userGroups]))

/-! ## Reconciliation helper (`server.js` lines 43–89) -/

/-- The member-join loop the server repeats at lines 53–71, 237–268 and
279–296: resolve each member of `ms` to a live socket and join it to the
room. -/
def joinMembersPass (st : ServerState) (chatId : String) (ms : List Member)
    (rs : List (String × List String)) : List (String × List String) :=
  ms.foldl (fun rs m =>
    match resolveMemberSocket st m.id with
    | none => rs
    | some msid => roomJoin rs chatId msid) rs

/-- `ensureGroupMembersInRoom`: for a `group-`-prefixed id with a stored
group, join every member with a resolvable live socket to the room; a no-op
otherwise.  Only the room adapter changes. -/
def ensureGroupMembersInRoom (st : ServerState) (chatId : String) :
    ServerState :=
  if strStartsWith chatId "group-" then
    match mapGet st.groupChats chatId with
    | none => st
    | some group =>
      { st with rooms := joinMembersPass st chatId group.members st.rooms }
  else st

/-! ## `joinChat` handler (`server.js` lines 178–365) -/

/-- Normalizing a member list as stored into `groupChats`
(lines 227–230): ids kept, usernames trimmed. -/
def normalizeMembers (ms : List Member) : List Member :=
  ms.map (fun m => { id := m.id, username := (jsTrim m.username) })

/-- `socket.on('joinChat')`.  The third component is the deferred re-check
scheduled with `setTimeout` (lines 271–298): `some (chatId, validMembers)`
when one was scheduled, run later via `joinChatDeferred`.  Note that the
requester is joined to the room and the `chatRooms` record is created
*before* any group validation runs. -/
def joinChatHandler (st : ServerState) (sid chatId userId username : String)
    (isGroup : Bool) (groupName : String) (members : List Member) (now : Nat) :
    ServerState × List Emit × Option (String × List Member) :=
  let st1 := { st with rooms := roomJoin st.rooms chatId sid }
  let st2 :=
    if mapHas st1.chatRooms chatId then st1
    else
      let newRoom : ChatRoom :=
        { id := chatId, isGroup := isGroup,
          name := if isGroup then groupName else "Direct Chat",
          createdAt := now,
          members := if isGroup then members else [],
          messages := [] }
      { st1 with chatRooms := mapSet st1.chatRooms chatId newRoom }
  if isGroup && !members.isEmpty then
    if (jsTrim groupName) == "" then
      (st2, [Emit.errorMsg sid "Invalid group name" none], none)
    else
      let validMembers := members.filter (fun m => !((jsTrim m.username) == ""))
      if validMembers.isEmpty then
        (st2, [Emit.errorMsg sid "No valid members for group" none], none)
      else
        let isNewGroup := !mapHas st2.groupChats chatId
        let newGroup : GroupChat :=
          { id := chatId, name := (jsTrim groupName), createdBy := userId,
            createdAt := now, members := normalizeMembers validMembers }
        let st3 := { st2 with groupChats := mapSet st2.groupChats chatId newGroup }
        let st4 := { st3 with rooms := joinMembersPass st chatId validMembers st3.rooms }
        let notifyEmits := validMembers.filterMap (fun m =>
          match resolveMemberSocket st m.id with
          | none => none
          | some msid =>
            if isNewGroup && !(m.id == userId) then
              some (Emit.newGroupChat msid chatId (jsTrim groupName) username
                (normalizeMembers validMembers))
            else none)
        let createdEmits :=
          if isNewGroup then
            validMembers.filterMap (fun m =>
              if !(m.id == userId) then
                match resolveMemberSocket st m.id with
                | none => none
                | some msid =>
                  some (Emit.groupChatCreated msid chatId (jsTrim groupName)
                    username (normalizeMembers validMembers))
              else none)
          else []
        (st4,
         notifyEmits ++ createdEmits ++
           [Emit.userJoinedRoom chatId sid username],
         some (chatId, validMembers))
  else
    let st5 :=
      if !isGroup && strContainsChar chatId '-' then
        let userIds := splitOnDash chatId
        let socketIds := (st2.connectedUsers.filter
          (fun p => userIds.contains p.2.id)).map (fun p => p.1)
        let rooms5 := socketIds.foldl (fun rs s =>
          if st2.sockets.contains s then roomJoin rs chatId s else rs) st2.rooms
        { st2 with rooms := rooms5 }
      else st2
    (st5, [Emit.userJoinedRoom chatId sid username], none)

/-- The body of the `setTimeout` callback (lines 271–298): if the room is
present in the adapter and still has fewer sockets than the group has valid
members, run the member-join pass once more against the state at fire time. -/
def joinChatDeferred (st : ServerState) (chatId : String)
    (validMembers : List Member) : ServerState :=
  match mapGet st.rooms chatId with
  | none => st
  | some l =>
    if l.length < validMembers.length then
      { st with rooms := joinMembersPass st chatId validMembers st.rooms }
    else st

/-! ## `message` handler (`server.js` lines 368–473) -/

/-- Sender-identity recovery (lines 374–397): with a blank display name,
take the identity from `connectedUsers`; failing that, synthesize a
placeholder when a `chatId` is present, and drop the message (`return`)
when none is. -/
def fixIdentity (st : ServerState) (sid : String) (msg : MessageData)
    (now : Nat) : Option MessageData :=
  if (jsTrim msg.username) == "" then
    let fallback : Option MessageData :=
      match msg.chatId with
      | some _ =>
        some { msg with
          username := if msg.username == "" then "Unknown User" else msg.username,
          userId := if msg.userId == "" then "unknown-" ++ toString now
            else msg.userId }
      | none => none
    match mapGet st.connectedUsers sid with
    | some u =>
      if u.username == "" then fallback
      else some { msg with username := u.username, userId := u.id }
    | none => fallback
  else some msg

/-- Appending an incoming message to a conversation's history array
(lines 461–468). -/
def appendHistory (cr : List (String × ChatRoom)) (chatId : String)
    (msg : MessageData) : List (String × ChatRoom) :=
  match mapGet cr chatId with
  | none => cr
  | some room => mapSet cr chatId { room with messages := room.messages ++ [msg] }

/-- Routing an identity-fixed message (lines 399–472): no `chatId` means a
global broadcast; a `group-`-prefixed id with a stored group first runs
`ensureGroupMembersInRoom` and then unicasts to each non-sender member with
a live socket; anything else is a room broadcast. -/
def routeMessage (st : ServerState) (sid : String) (msg : MessageData) :
    ServerState × List Emit :=
  match msg.chatId with
  | none => (st, [Emit.broadcastMessage sid msg])
  | some chatId =>
    let st1 :=
      if strStartsWith chatId "group-" then
        match mapGet st.rooms chatId with
        | some _ => ensureGroupMembersInRoom st chatId
        | none =>
          if mapHas st.groupChats chatId then ensureGroupMembersInRoom st chatId
          else st
      else st
    let routed : ServerState × List Emit :=
      match mapGet st.groupChats chatId with
      | some group =>
        if strStartsWith chatId "group-" then
          (st1, group.members.filterMap (fun m =>
            if !(m.id == msg.userId) then
              match resolveMemberSocket st m.id with
              | none => none
              | some msid => some (Emit.message msid msg)
            else none))
        else (st1, [Emit.roomMessage chatId sid msg])
      | none => (st1, [Emit.roomMessage chatId sid msg])
    ({ routed.1 with chatRooms := appendHistory routed.1.chatRooms chatId msg },
     routed.2)

/-- `socket.on('message')`: identity recovery then routing; a `none` from
`fixIdentity` is the handler's early `return` (message dropped). -/
def messageHandler (st : ServerState) (sid : String) (msg : MessageData)
    (now : Nat) : ServerState × List Emit :=
  match fixIdentity st sid msg now with
  | none => (st, [])
  | some m => routeMessage st sid m

/-! ## `getGroupInfo` handler (`server.js` lines 564–581) -/

/-- `socket.on('getGroupInfo')`: a stored group is answered with its
snapshot and the requester is joined to the room; an unknown id does
nothing at all. -/
def getGroupInfoHandler (st : ServerState) (sid chatId : String) :
    ServerState × List Emit :=
  match mapGet st.groupChats chatId with
  | none => (st, [])
  | some group =>
    ({ st with rooms := roomJoin st.rooms chatId sid },
     [Emit.groupInfo sid chatId group.name group.createdBy group.createdAt
        group.members])

/-! ## `deleteGroup` handler (`server.js` lines 584–650) -/

/-- `socket.on('deleteGroup')`: only the stored `createdBy` may delete; on
success the group and conversation records are removed, every prior member
with a live socket is told `groupDeleted`, and the requester gets
`groupDeleteSuccess`; failures emit a single error to the requester. -/
def deleteGroupHandler (st : ServerState) (sid chatId userId username : String) :
    ServerState × List Emit :=
  match mapGet st.groupChats chatId with
  | some group =>
    if group.createdBy == userId then
      ({ st with groupChats := mapDelete st.groupChats chatId,
                 chatRooms := mapDelete st.chatRooms chatId },
       (group.members.filterMap (fun m =>
          match resolveMemberSocket st m.id with
          | none => none
          | some msid =>
            some (Emit.groupDeleted msid chatId group.name username))) ++
       [Emit.groupDeleteSuccess sid chatId group.name])
    else
      (st, [Emit.errorMsg sid "You are not authorized to delete this group"
              (some "unauthorized_delete")])
  | none =>
    (st, [Emit.errorMsg sid "Group not found" (some "group_not_found")])

/-! ## Direct-chat id (client side, `UsersScreen.tsx` `handleStartChat`) -/

/-- `const directChatId = [userId, targetUser.id].sort().join('-')` —
sorting a two-element array and joining with `"-"`. -/
def directChatId (a b : String) : String :=
  String.intercalate "-" (if strLe a b then [a, b] else [b, a])

/-! ## Event sequences and registry invariant -/

/-- One `join` event: socket id, user id, display name, timestamp. -/
structure JoinEv where
  sid : String
  userId : String
  username : String
  now : Nat
  deriving Repr, DecidableEq

/-- Running a sequence of `join` events against the server. -/
def applyJoins (st : ServerState) (evs : List JoinEv) : ServerState :=
  evs.foldl (fun s e => (joinHandler s e.sid e.userId e.username e.now).1) st

/-- The session-registry invariant: distinct entries of `connectedUsers`
have distinct socket ids (the `Map` keys) and distinct logical user ids. -/
def usersPairwise (cu : List (String × UserInfo)) : Prop :=
  cu.Pairwise (fun p q => p.1 ≠ q.1 ∧ p.2.id ≠ q.2.id)

/-! ## Concrete sample data (used by witnesses and counterexamples) -/

/-- Sample member Alice. -/
def aliceM : Member := { id := "a", username := "Alice" }

/-- Sample member Bob. -/
def bobM : Member := { id := "b", username := "Bob" }

/-- Alice's registry entry on socket `s1`. -/
def aliceU : UserInfo :=
  { id := "a", username := "Alice", socketId := "s1", joinedAt := 1 }

/-- Bob's registry entry on socket `s2`. -/
def bobU : UserInfo :=
  { id := "b", username := "Bob", socketId := "s2", joinedAt := 2 }

/-- A stored group `group-1` named "Team", created by Alice, members
Alice and Bob. -/
def teamG : GroupChat :=
  { id := "group-1", name := "Team", createdBy := "a", createdAt := 1,
    members := [aliceM, bobM] }

/-- A server state with Alice and Bob connected, the `group-1` group stored,
and both sockets in its room. -/
def stTwo : ServerState :=
  { connectedUsers := [("s1", aliceU), ("s2", bobU)],
    chatRooms := [],
    groupChats := [("group-1", teamG)],
    rooms := [("group-1", ["s1", "s2"])],
    sockets := ["s1", "s2"] }

/-- `stTwo` but the group is stored under the id `team1`, which does not
carry the `group-` prefix. -/
def stTeamNoPrefix : ServerState :=
  { stTwo with groupChats := [("team1", { teamG with id := "team1" })] }

/-- `stTwo` with an empty room adapter: the `group-1` room has zero
subscribers. -/
def stNoRoom : ServerState := { stTwo with rooms := [] }

/-- A sample message from Alice into `group-1`. -/
def msgHi : MessageData :=
  { chatId := some "group-1", username := "Alice", userId := "a", text := "hi" }

/-! ## Lemmas about the `Map` embedding -/

theorem mapGet_append_single {α : Type} (m : List (String × α)) (k : String)
    (v : α) (h : mapHas m k = false) : mapGet (m ++ [(k, v)]) k = some v := by
  induction m with
  | nil => simp [mapGet]
  | cons p t ih =>
    simp only [mapHas, List.any_cons, Bool.or_eq_false_iff] at h
    simp only [List.cons_append, mapGet, List.find?]
    rw [h.1]
    exact ih h.2

theorem mapGet_map_replace {α : Type} (m : List (String × α)) (k : String)
    (v : α) (h : mapHas m k = true) :
    mapGet (m.map (fun p => if p.1 == k then (k, v) else p)) k = some v := by
  induction m with
  | nil => simp [mapHas] at h
  | cons p t ih =>
    rw [List.map_cons]
    by_cases hp : (p.1 == k) = true
    · rw [if_pos hp]
      unfold mapGet
      rw [List.find?_cons_of_pos _ (by simp)]
      rfl
    · have hp' : (p.1 == k) = false := by simpa using hp
      have h' : mapHas t k = true := by
        unfold mapHas at h ⊢
        rw [List.any_cons, hp', Bool.false_or] at h
        exact h
      rw [if_neg hp]
      unfold mapGet
      rw [List.find?_cons_of_neg _ (by simp [hp'])]
      exact ih h'

theorem mapGet_mapSet_self {α : Type} (m : List (String × α)) (k : String)
    (v : α) : mapGet (mapSet m k v) k = some v := by
  unfold mapSet
  by_cases h : mapHas m k
  · rw [if_pos h]; exact mapGet_map_replace m k v h
  · rw [if_neg h]
    exact mapGet_append_single m k v (Bool.eq_false_iff.mpr h)

theorem mapGet_mapDelete_self {α : Type} (m : List (String × α)) (k : String) :
    mapGet (mapDelete m k) k = none := by
  unfold mapGet mapDelete
  have hfind : List.find? (fun p => p.1 == k)
      (m.filter (fun p => !(p.1 == k))) = none := by
    rw [List.find?_eq_none]
    intro p hp
    rcases List.mem_filter.mp hp with ⟨_, hpred⟩
    simpa using hpred
  rw [hfind]
  rfl

theorem mapHas_eq_isSome {α : Type} (m : List (String × α)) (k : String) :
    mapHas m k = (mapGet m k).isSome := by
  induction m with
  | nil => simp [mapHas, mapGet]
  | cons p t ih =>
    by_cases hp : p.1 == k
    · simp [mapHas, mapGet, List.find?, hp]
    · simp only [mapHas, List.any_cons, hp, Bool.false_or, mapGet, List.find?,
        Bool.eq_false_iff.mpr hp] at *
      exact ih

theorem mem_mapSet {α : Type} {m : List (String × α)} {k : String} {v : α}
    {p : String × α} (h : p ∈ mapSet m k v) :
    p = (k, v) ∨ (p ∈ m ∧ p.1 ≠ k) := by
  unfold mapSet at h
  by_cases hh : mapHas m k
  · rw [if_pos hh] at h
    rcases List.mem_map.mp h with ⟨q, hq, hfq⟩
    by_cases hqk : q.1 == k
    · left; rw [if_pos hqk] at hfq; exact hfq.symm
    · right
      rw [if_neg hqk] at hfq
      subst hfq
      exact ⟨hq, by simpa using hqk⟩
  · rw [if_neg hh] at h
    rcases List.mem_append.mp h with h1 | h1
    · right
      refine ⟨h1, fun hk => ?_⟩
      have : mapHas m k = true := by
        unfold mapHas
        rw [List.any_eq_true]
        exact ⟨p, h1, by simpa using hk⟩
      exact hh this
    · left; simpa using h1

theorem mapHas_mapDelete_self {α : Type} (m : List (String × α)) (k : String) :
    mapHas (mapDelete m k) k = false := by
  rw [mapHas_eq_isSome, mapGet_mapDelete_self]
  rfl

/-! ## Lemmas about rooms -/

theorem roomMembers_eq_nil_of_none {rooms : List (String × List String)}
    {c : String} (h : mapGet rooms c = none) : roomMembers rooms c = [] := by
  unfold roomMembers
  rw [h]
  rfl

theorem roomJoin_of_none {rooms : List (String × List String)} {c : String}
    (s : String) (h : mapGet rooms c = none) :
    roomJoin rooms c s = rooms ++ [(c, [s])] := by
  unfold roomJoin
  rw [h]

theorem roomJoin_of_contains {rooms : List (String × List String)}
    {c s : String} {l : List String} (h : mapGet rooms c = some l)
    (hs : l.contains s = true) : roomJoin rooms c s = rooms := by
  unfold roomJoin
  rw [h]
  show (if l.contains s = true then rooms else mapSet rooms c (l ++ [s])) = rooms
  rw [if_pos hs]

theorem roomJoin_of_not_contains {rooms : List (String × List String)}
    {c s : String} {l : List String} (h : mapGet rooms c = some l)
    (hs : l.contains s = false) :
    roomJoin rooms c s = mapSet rooms c (l ++ [s]) := by
  unfold roomJoin
  rw [h]
  show (if l.contains s = true then rooms else mapSet rooms c (l ++ [s]))
      = mapSet rooms c (l ++ [s])
  rw [if_neg (by rw [hs]; exact Bool.false_ne_true)]

theorem mem_roomJoin_self (rooms : List (String × List String))
    (c s : String) : s ∈ roomMembers (roomJoin rooms c s) c := by
  cases h : mapGet rooms c with
  | none =>
    rw [roomJoin_of_none s h]
    unfold roomMembers
    rw [mapGet_append_single rooms c [s] (by rw [mapHas_eq_isSome, h]; rfl)]
    simp
  | some l =>
    cases hs : l.contains s with
    | true =>
      rw [roomJoin_of_contains h hs]
      unfold roomMembers
      rw [h]
      exact List.elem_iff.mp hs
    | false =>
      rw [roomJoin_of_not_contains h hs]
      unfold roomMembers
      rw [mapGet_mapSet_self]
      simp

theorem mem_roomJoin_of_mem {rooms : List (String × List String)}
    {c x : String} (s : String) (h : x ∈ roomMembers rooms c) :
    x ∈ roomMembers (roomJoin rooms c s) c := by
  cases hg : mapGet rooms c with
  | none =>
    rw [roomMembers_eq_nil_of_none hg] at h
    exact absurd h (List.not_mem_nil x)
  | some l =>
    have hx : x ∈ l := by
      unfold roomMembers at h
      rw [hg] at h
      exact h
    cases hs : l.contains s with
    | true => rw [roomJoin_of_contains hg hs]; exact h
    | false =>
      rw [roomJoin_of_not_contains hg hs]
      unfold roomMembers
      rw [mapGet_mapSet_self]
      simp [List.mem_append, hx]

/-! ## Lemmas about the member-join pass -/

theorem mem_joinMembersPass {st : ServerState} {c x : String}
    (ms : List Member) (rs : List (String × List String))
    (hx : x ∈ roomMembers rs c) :
    x ∈ roomMembers (joinMembersPass st c ms rs) c := by
  induction ms generalizing rs with
  | nil => exact hx
  | cons m t ih =>
    unfold joinMembersPass
    rw [List.foldl_cons]
    cases hr : resolveMemberSocket st m.id with
    | none =>
      simp only [hr]
      exact ih rs hx
    | some msid =>
      simp only [hr]
      exact ih _ (mem_roomJoin_of_mem msid hx)

theorem joinMembersPass_joins {st : ServerState} {c : String}
    (ms : List Member) (rs : List (String × List String)) :
    ∀ m ∈ ms, ∀ s, resolveMemberSocket st m.id = some s →
      s ∈ roomMembers (joinMembersPass st c ms rs) c := by
  induction ms generalizing rs with
  | nil =>
    intro m hm
    exact absurd hm (List.not_mem_nil m)
  | cons m0 t ih =>
    intro m hm s hs
    unfold joinMembersPass
    rw [List.foldl_cons]
    rcases List.mem_cons.mp hm with rfl | hmt
    · simp only [hs]
      exact mem_joinMembersPass t _ (mem_roomJoin_self _ c s)
    · cases hr : resolveMemberSocket st m0.id with
      | none =>
        simp only [hr]
        exact ih rs m hmt s hs
      | some msid =>
        simp only [hr]
        exact ih _ m hmt s hs

/-! ## C4: failing deletes change nothing and answer only the requester -/

/-- C4: a `deleteGroup` by a non-creator fails `unauthorized_delete`, a
`deleteGroup` naming an unknown conversation fails `group_not_found`, and in
both cases the entire server state (group record, membership, subscriptions)
is unchanged and the single error event is addressed to the requesting
socket only. -/
theorem deleteGroup_failure_cases (st : ServerState)
    (sid chatId userId username : String)
    (hfail : ∀ g, mapGet st.groupChats chatId = some g → g.createdBy ≠ userId) :
    (deleteGroupHandler st sid chatId userId username).1 = st ∧
    (deleteGroupHandler st sid chatId userId username).2 =
      (if mapHas st.groupChats chatId then
        [Emit.errorMsg sid "You are not authorized to delete this group"
          (some "unauthorized_delete")]
      else
        [Emit.errorMsg sid "Group not found" (some "group_not_found")]) := by
  cases hg : mapGet st.groupChats chatId with
  | none =>
    have hh : mapHas st.groupChats chatId = false := by
      rw [mapHas_eq_isSome, hg]
      rfl
    unfold deleteGroupHandler
    rw [hg]
    simp [hh]
  | some g =>
    have hb : (g.createdBy == userId) = false := by
      simpa using hfail g hg
    have hh : mapHas st.groupChats chatId = true := by
      rw [mapHas_eq_isSome, hg]
      rfl
    unfold deleteGroupHandler
    rw [hg]
    simp [hb, hh]

/-- C4 witness: Bob (not the creator) tries to delete `group-1` in `stTwo`
and gets exactly the unauthorized error, with the state untouched. -/
theorem deleteGroup_failure_cases_witness :
    (deleteGroupHandler stTwo "s2" "group-1" "b" "Bob").1 = stTwo ∧
    (deleteGroupHandler stTwo "s2" "group-1" "b" "Bob").2 =
      [Emit.errorMsg "s2" "You are not authorized to delete this group"
        (some "unauthorized_delete")] := by
  have h := deleteGroup_failure_cases stTwo "s2" "group-1" "b" "Bob"
    (by
      intro g hgg
      have h0 : mapGet stTwo.groupChats "group-1" = some teamG := by rfl
      rw [h0] at hgg
      rw [← Option.some.inj hgg]
      decide)
  refine ⟨h.1, ?_⟩
  rw [h.2]
  rfl

/-! ## C7: getGroupInfo — snapshot on hit, silence on miss -/

/-- The state reached from `stTwo` after Alice successfully deletes
`group-1`. -/
def stAfterDelete : ServerState :=
  (deleteGroupHandler stTwo "s1" "group-1" "a" "Alice").1

/-- C7 counterexample: after Alice deletes `group-1`, Bob's `getGroupInfo`
for that id produces *no* emission at all — the requester never receives the
`NotFound` result the claim promises (the handler has no else-branch). -/
theorem getGroupInfo_missing_silent_cex :
    getGroupInfoHandler stAfterDelete "s2" "group-1" = (stAfterDelete, []) := by
  rfl

/-- C7 (amended): a `getGroupInfo` naming a conversation with no stored
group is silently ignored — no reply of any kind is sent; when the record
exists the requester receives its snapshot (name, members, createdBy,
createdAt) and is (re)joined to the conversation room. -/
theorem getGroupInfo_spec (st : ServerState) (sid chatId : String) :
    (mapGet st.groupChats chatId = none →
      getGroupInfoHandler st sid chatId = (st, [])) ∧
    (∀ g, mapGet st.groupChats chatId = some g →
      getGroupInfoHandler st sid chatId =
        ({ st with rooms := roomJoin st.rooms chatId sid },
         [Emit.groupInfo sid chatId g.name g.createdBy g.createdAt g.members]) ∧
      sid ∈ roomMembers (getGroupInfoHandler st sid chatId).1.rooms chatId) := by
  constructor
  · intro h
    unfold getGroupInfoHandler
    rw [h]
  · intro g h
    unfold getGroupInfoHandler
    rw [h]
    exact ⟨rfl, mem_roomJoin_self st.rooms chatId sid⟩

/-- C7 witness: Bob requests info for the stored `group-1` in `stTwo` and
receives the snapshot while being joined to the room. -/
theorem getGroupInfo_spec_witness :
    getGroupInfoHandler stTwo "s2" "group-1" =
      ({ stTwo with rooms := roomJoin stTwo.rooms "group-1" "s2" },
       [Emit.groupInfo "s2" "group-1" teamG.name teamG.createdBy
          teamG.createdAt teamG.members]) ∧
    "s2" ∈ roomMembers (getGroupInfoHandler stTwo "s2" "group-1").1.rooms
      "group-1" :=
  (getGroupInfo_spec stTwo "s2" "group-1").2 teamG (by rfl)

/-! ## C3: delete by the creator -/

/-- C3 counterexample: when Alice deletes `group-1` in `stTwo`, the
`GroupRecord` and `Conversation` record are removed and the notices go out,
but the room adapter — the Subscription state of the conversation — is left
exactly as it was, contradicting the claim that the deletion removes the
associated Subscription state. -/
theorem deleteGroup_keeps_subscriptions_cex :
    mapGet stAfterDelete.groupChats "group-1" = none ∧
    stAfterDelete.rooms = [("group-1", ["s1", "s2"])] ∧
    roomMembers stAfterDelete.rooms "group-1" = ["s1", "s2"] := by
  refine ⟨?_, ?_, ?_⟩ <;> rfl

/-- C3 (amended): a delete request by the group's creator removes the
`GroupRecord` and the associated `Conversation` record, sends a
`groupDeleted` notice to every member held by the record at deletion time
who resolves to a live session, and acknowledges success to the requester;
the room-subscription state, however, is left unchanged. -/
theorem deleteGroup_by_creator_spec (st : ServerState)
    (sid chatId userId username : String) (g : GroupChat)
    (hg : mapGet st.groupChats chatId = some g)
    (hcr : g.createdBy = userId) :
    mapGet (deleteGroupHandler st sid chatId userId username).1.groupChats
      chatId = none ∧
    mapGet (deleteGroupHandler st sid chatId userId username).1.chatRooms
      chatId = none ∧
    (deleteGroupHandler st sid chatId userId username).1.rooms = st.rooms ∧
    (deleteGroupHandler st sid chatId userId username).2 =
      (g.members.filterMap (fun m =>
        match resolveMemberSocket st m.id with
        | none => none
        | some msid => some (Emit.groupDeleted msid chatId g.name username))) ++
      [Emit.groupDeleteSuccess sid chatId g.name] ∧
    (∀ m ∈ g.members, ∀ s, resolveMemberSocket st m.id = some s →
      Emit.groupDeleted s chatId g.name username ∈
        (deleteGroupHandler st sid chatId userId username).2) := by
  have hb : (g.createdBy == userId) = true := by simpa using hcr
  have hred : deleteGroupHandler st sid chatId userId username =
      ({ st with groupChats := mapDelete st.groupChats chatId,
                 chatRooms := mapDelete st.chatRooms chatId },
       (g.members.filterMap (fun m =>
          match resolveMemberSocket st m.id with
          | none => none
          | some msid =>
            some (Emit.groupDeleted msid chatId g.name username))) ++
       [Emit.groupDeleteSuccess sid chatId g.name]) := by
    unfold deleteGroupHandler
    rw [hg]
    simp [hb]
  rw [hred]
  refine ⟨mapGet_mapDelete_self _ _, mapGet_mapDelete_self _ _, rfl, rfl, ?_⟩
  intro m hm s hs
  rw [List.mem_append]
  left
  rw [List.mem_filterMap]
  exact ⟨m, hm, by rw [hs]⟩

/-- C3 witness: Alice deletes `group-1` in `stTwo`; both records vanish,
both members are notified, the requester is acked, and the room is left
as it was. -/
theorem deleteGroup_by_creator_spec_witness :
    mapGet (deleteGroupHandler stTwo "s1" "group-1" "a" "Alice").1.groupChats
      "group-1" = none ∧
    mapGet (deleteGroupHandler stTwo "s1" "group-1" "a" "Alice").1.chatRooms
      "group-1" = none ∧
    (deleteGroupHandler stTwo "s1" "group-1" "a" "Alice").1.rooms =
      stTwo.rooms ∧
    (deleteGroupHandler stTwo "s1" "group-1" "a" "Alice").2 =
      (teamG.members.filterMap (fun m =>
        match resolveMemberSocket stTwo m.id with
        | none => none
        | some msid =>
          some (Emit.groupDeleted msid "group-1" teamG.name "Alice"))) ++
      [Emit.groupDeleteSuccess "s1" "group-1" teamG.name] ∧
    (∀ m ∈ teamG.members, ∀ s, resolveMemberSocket stTwo m.id = some s →
      Emit.groupDeleted s "group-1" teamG.name "Alice" ∈
        (deleteGroupHandler stTwo "s1" "group-1" "a" "Alice").2) :=
  deleteGroup_by_creator_spec stTwo "s1" "group-1" "a" "Alice" teamG
    (by rfl) (by rfl)

/-! ## C8: the deferred re-check -/

/-- `stTwo` with the `group-1` room holding only Alice's socket. -/
def stSmallRoom : ServerState := { stTwo with rooms := [("group-1", ["s1"])] }

/-- C8 counterexample: in `stNoRoom` the `group-1` room has zero
subscribers (it is absent from the adapter) while the group has two valid
members, both resolvable to live sockets — yet the deferred re-check does
nothing at all, because `io.sockets.adapter.rooms.get(chatId)` is falsy and
the `roomSockets && roomSockets.size < validMembers.length` guard fails.
The claim's "including when the room currently has zero subscribers" is
therefore false. -/
theorem deferred_recheck_empty_room_cex :
    roomMembers stNoRoom.rooms "group-1" = [] ∧
    resolveMemberSocket stNoRoom "a" = some "s1" ∧
    resolveMemberSocket stNoRoom "b" = some "s2" ∧
    joinChatDeferred stNoRoom "group-1" [aliceM, bobM] = stNoRoom := by
  refine ⟨rfl, rfl, rfl, rfl⟩

/-- C8 (amended): the deferred re-check scheduled by a group
`createOrUpdate` repeats the subscribe pass at most once more and only when
the room is *present* in the adapter (at least one subscriber) with fewer
subscribers than valid members; when the room is absent — zero
subscribers — or already large enough, it does nothing.  When it does fire
it re-runs the member-join pass once, after which every member resolvable
to a live session is in the room. -/
theorem deferred_recheck_spec (st : ServerState) (chatId : String)
    (vm : List Member) :
    (mapGet st.rooms chatId = none → joinChatDeferred st chatId vm = st) ∧
    (∀ l, mapGet st.rooms chatId = some l → vm.length ≤ l.length →
      joinChatDeferred st chatId vm = st) ∧
    (∀ l, mapGet st.rooms chatId = some l → l.length < vm.length →
      (joinChatDeferred st chatId vm).rooms =
        joinMembersPass st chatId vm st.rooms ∧
      (∀ m ∈ vm, ∀ s, resolveMemberSocket st m.id = some s →
        s ∈ roomMembers (joinChatDeferred st chatId vm).rooms chatId)) := by
  refine ⟨?_, ?_, ?_⟩
  · intro h
    unfold joinChatDeferred
    rw [h]
  · intro l h hle
    unfold joinChatDeferred
    rw [h]
    show (if l.length < vm.length then
        { st with rooms := joinMembersPass st chatId vm st.rooms }
      else st) = st
    rw [if_neg (not_lt.mpr hle)]
  · intro l h hlt
    have hred : joinChatDeferred st chatId vm =
        { st with rooms := joinMembersPass st chatId vm st.rooms } := by
      unfold joinChatDeferred
      rw [h]
      show (if l.length < vm.length then
          { st with rooms := joinMembersPass st chatId vm st.rooms }
        else st) = { st with rooms := joinMembersPass st chatId vm st.rooms }
      rw [if_pos hlt]
    rw [hred]
    exact ⟨rfl, fun m hm s hs => joinMembersPass_joins vm st.rooms m hm s hs⟩

/-- C8 witness: with only Alice's socket in the room and two valid members,
the deferred pass fires and puts every resolvable member into the room. -/
theorem deferred_recheck_spec_witness :
    (joinChatDeferred stSmallRoom "group-1" [aliceM, bobM]).rooms =
      joinMembersPass stSmallRoom "group-1" [aliceM, bobM] stSmallRoom.rooms ∧
    (∀ m ∈ [aliceM, bobM], ∀ s,
      resolveMemberSocket stSmallRoom m.id = some s →
      s ∈ roomMembers
        (joinChatDeferred stSmallRoom "group-1" [aliceM, bobM]).rooms
        "group-1") :=
  (deferred_recheck_spec stSmallRoom "group-1" [aliceM, bobM]).2.2 ["s1"]
    (by rfl) (by decide)

/-! ## C10: failed group validation is not atomic -/

/-- C10: a `joinChat` carrying a group payload that fails validation (blank
group name, or no member with a non-blank name) has already joined the
requesting socket to the room and, if the conversation was new, created the
`chatRooms` record, before the single validation error is emitted to the
requester; the group directory is untouched and no deferred task is
scheduled. -/
theorem joinChat_validation_not_atomic (st : ServerState)
    (sid chatId userId username groupName : String) (members : List Member)
    (now : Nat) (hmem : members.isEmpty = false)
    (hfail : (jsTrim groupName) = "" ∨
      members.filter (fun m => !((jsTrim m.username) == "")) = []) :
    (joinChatHandler st sid chatId userId username true groupName members
      now).1.rooms = roomJoin st.rooms chatId sid ∧
    sid ∈ roomMembers (joinChatHandler st sid chatId userId username true
      groupName members now).1.rooms chatId ∧
    (mapHas st.chatRooms chatId = false →
      mapGet (joinChatHandler st sid chatId userId username true groupName
        members now).1.chatRooms chatId = some
        { id := chatId, isGroup := true, name := groupName, createdAt := now,
          members := members, messages := [] }) ∧
    (joinChatHandler st sid chatId userId username true groupName members
      now).1.groupChats = st.groupChats ∧
    (joinChatHandler st sid chatId userId username true groupName members
      now).2.1 = [Emit.errorMsg sid
        (if (jsTrim groupName) == "" then "Invalid group name"
         else "No valid members for group") none] ∧
    (joinChatHandler st sid chatId userId username true groupName members
      now).2.2 = none := by
  by_cases hn : (jsTrim groupName) = ""
  · by_cases hcr : mapHas st.chatRooms chatId
    · simp [joinChatHandler, hmem, hn, hcr, mem_roomJoin_self]
    · simp [joinChatHandler, hmem, hn, hcr, mem_roomJoin_self,
        mapGet_mapSet_self]
  · have hv : members.filter (fun m => !((jsTrim m.username) == "")) = [] := by
      rcases hfail with h | h
      · exact absurd h hn
      · exact h
    by_cases hcr : mapHas st.chatRooms chatId
    · simp [joinChatHandler, hmem, hn, hv, hcr, mem_roomJoin_self]
    · simp [joinChatHandler, hmem, hn, hv, hcr, mem_roomJoin_self,
        mapGet_mapSet_self]

/-- C10 witness: Alice submits a group payload with a blank name in
`stTwo`; the room join and conversation record persist while only the
validation error is emitted. -/
theorem joinChat_validation_not_atomic_witness :
    (joinChatHandler stTwo "s1" "group-2" "a" "Alice" true "   " [aliceM]
      5).1.rooms = roomJoin stTwo.rooms "group-2" "s1" ∧
    "s1" ∈ roomMembers (joinChatHandler stTwo "s1" "group-2" "a" "Alice"
      true "   " [aliceM] 5).1.rooms "group-2" ∧
    (mapHas stTwo.chatRooms "group-2" = false →
      mapGet (joinChatHandler stTwo "s1" "group-2" "a" "Alice" true "   "
        [aliceM] 5).1.chatRooms "group-2" = some
        { id := "group-2", isGroup := true, name := "   ", createdAt := 5,
          members := [aliceM], messages := [] }) ∧
    (joinChatHandler stTwo "s1" "group-2" "a" "Alice" true "   " [aliceM]
      5).1.groupChats = stTwo.groupChats ∧
    (joinChatHandler stTwo "s1" "group-2" "a" "Alice" true "   " [aliceM]
      5).2.1 = [Emit.errorMsg "s1"
        (if jsTrim "   " == "" then "Invalid group name"
         else "No valid members for group") none] ∧
    (joinChatHandler stTwo "s1" "group-2" "a" "Alice" true "   " [aliceM]
      5).2.2 = none :=
  joinChat_validation_not_atomic stTwo "s1" "group-2" "a" "Alice" "   "
    [aliceM] 5 (by rfl) (Or.inl (by decide))

/-! ## C1: what a group createOrUpdate stores -/

/-- C1 counterexample: `group-1` in `stTwo` was created by Alice
(`createdBy = "a"`), but after Bob re-issues a `joinChat` with a group
payload for the same id, the stored `createdBy` is `"b"` — the update
overwrites the creator instead of preserving it, because the handler
unconditionally stores `createdBy: userId`. -/
theorem joinChat_update_overwrites_creator_cex :
    (mapGet stTwo.groupChats "group-1").map (fun g => g.createdBy) =
      some "a" ∧
    (mapGet (joinChatHandler stTwo "s2" "group-1" "b" "Bob" true "Team"
      [aliceM, bobM] 9).1.groupChats "group-1").map (fun g => g.createdBy) =
      some "b" := by
  exact ⟨rfl, by decide⟩

/-- C1 (amended): a `joinChat` carrying a valid group payload stores a
complete replacement record — name, members, `createdAt`, *and*
`createdBy` — with `createdBy` set to the issuing caller, whether or not a
record for the conversation already existed; the creator fixed at creation
is not preserved across updates. -/
theorem joinChat_group_record_replaced (st : ServerState)
    (sid chatId userId username groupName : String) (members : List Member)
    (now : Nat) (hmem : members.isEmpty = false)
    (hname : (jsTrim groupName == "") = false)
    (hvalid : (members.filter
      (fun m => !((jsTrim m.username) == ""))).isEmpty = false) :
    mapGet (joinChatHandler st sid chatId userId username true groupName
      members now).1.groupChats chatId = some
      { id := chatId, name := jsTrim groupName, createdBy := userId,
        createdAt := now,
        members := normalizeMembers (members.filter
          (fun m => !((jsTrim m.username) == ""))) } := by
  by_cases hcr : mapHas st.chatRooms chatId
  · simp [joinChatHandler, hmem, hname, hvalid, hcr, mapGet_mapSet_self]
  · simp [joinChatHandler, hmem, hname, hvalid, hcr, mapGet_mapSet_self]

/-- C1 witness: Bob updates the existing `group-1` with a new name; the
stored record is the full replacement with `createdBy = "b"`. -/
theorem joinChat_group_record_replaced_witness :
    mapGet (joinChatHandler stTwo "s2" "group-1" "b" "Bob" true "NewName"
      [aliceM, bobM] 9).1.groupChats "group-1" = some
      { id := "group-1", name := jsTrim "NewName", createdBy := "b",
        createdAt := 9,
        members := normalizeMembers ([aliceM, bobM].filter
          (fun m => !((jsTrim m.username) == ""))) } :=
  joinChat_group_record_replaced stTwo "s2" "group-1" "b" "Bob" "NewName"
    [aliceM, bobM] 9 (by rfl) (by decide) (by decide)

/-! ## C5: group delivery -/

/-- A sample message from Alice into the non-prefixed group id `team1`. -/
def msgTeam : MessageData :=
  { chatId := some "team1", username := "Alice", userId := "a", text := "hi" }

/-- C5 counterexample: in `stTeamNoPrefix` a `GroupRecord` exists for the
conversation `team1`, and Bob is a non-sender member with a live session,
yet Alice's message is delivered as a single room broadcast — not by
per-member unicast — because the unicast path additionally requires the id
to start with `group-`. -/
theorem group_message_broadcast_without_prefix_cex :
    (mapGet stTeamNoPrefix.groupChats "team1").isSome = true ∧
    resolveMemberSocket stTeamNoPrefix "b" = some "s2" ∧
    (messageHandler stTeamNoPrefix "s1" msgTeam 7).2 =
      [Emit.roomMessage "team1" "s1" msgTeam] := by
  refine ⟨rfl, rfl, by decide⟩

/-- C5 (amended): for a message naming a conversation whose id starts with
`group-` *and* for which a `GroupRecord` exists, the router first runs the
reconcile pass (`ensureGroupMembersInRoom`) and then delivers by per-member
unicast: the emitted events are exactly one `message` per stored member
whose id differs from the sender's and who resolves to a live session, and
no room broadcast is used.  A `GroupRecord` under an id without the
`group-` prefix does not get this treatment. -/
theorem group_message_unicast_spec (st : ServerState) (sid : String)
    (msg : MessageData) (now : Nat) (cid : String) (g : GroupChat)
    (hcid : msg.chatId = some cid)
    (hpre : strStartsWith cid "group-" = true)
    (hg : mapGet st.groupChats cid = some g)
    (hname : ((jsTrim msg.username) == "") = false) :
    (messageHandler st sid msg now).1.rooms =
      (ensureGroupMembersInRoom st cid).rooms ∧
    (messageHandler st sid msg now).2 = g.members.filterMap (fun m =>
      if !(m.id == msg.userId) then
        match resolveMemberSocket st m.id with
        | none => none
        | some msid => some (Emit.message msid msg)
      else none) ∧
    (∀ e ∈ (messageHandler st sid msg now).2, ∃ s, e = Emit.message s msg) ∧
    (∀ m ∈ g.members, (m.id == msg.userId) = false →
      ∀ s, resolveMemberSocket st m.id = some s →
        Emit.message s msg ∈ (messageHandler st sid msg now).2) := by
  have hfix : fixIdentity st sid msg now = some msg := by
    unfold fixIdentity
    rw [hname]
    simp
  have hroute : messageHandler st sid msg now = routeMessage st sid msg := by
    unfold messageHandler
    rw [hfix]
  have hhas : mapHas st.groupChats cid = true := by
    rw [mapHas_eq_isSome, hg]
    rfl
  have h2 : (messageHandler st sid msg now).2 = g.members.filterMap (fun m =>
      if !(m.id == msg.userId) then
        match resolveMemberSocket st m.id with
        | none => none
        | some msid => some (Emit.message msid msg)
      else none) := by
    rw [hroute]
    unfold routeMessage
    rw [hcid]
    cases hr : mapGet st.rooms cid with
    | none => simp [hpre, hg, hhas, hr]
    | some l => simp [hpre, hg, hr]
  have h1 : (messageHandler st sid msg now).1.rooms =
      (ensureGroupMembersInRoom st cid).rooms := by
    rw [hroute]
    unfold routeMessage
    rw [hcid]
    cases hr : mapGet st.rooms cid with
    | none => simp [hpre, hg, hhas, hr, appendHistory]
    | some l => simp [hpre, hg, hr, appendHistory]
  refine ⟨h1, h2, ?_, ?_⟩
  · intro e he
    rw [h2] at he
    rcases List.mem_filterMap.mp he with ⟨m, hm, hfm⟩
    cases hid : (m.id == msg.userId) with
    | true =>
      rw [hid] at hfm
      simp at hfm
    | false =>
      rw [hid] at hfm
      cases hr : resolveMemberSocket st m.id with
      | none =>
        rw [hr] at hfm
        simp at hfm
      | some s =>
        rw [hr] at hfm
        simp at hfm
        exact ⟨s, hfm.symm⟩
  · intro m hm hid s hs
    rw [h2]
    exact List.mem_filterMap.mpr ⟨m, hm, by simp [hid, hs]⟩

/-- C5 witness: Alice's message into `group-1` in `stTwo` reconciles the
room and unicasts exactly to Bob's socket. -/
theorem group_message_unicast_spec_witness :
    (messageHandler stTwo "s1" msgHi 7).1.rooms =
      (ensureGroupMembersInRoom stTwo "group-1").rooms ∧
    (messageHandler stTwo "s1" msgHi 7).2 = teamG.members.filterMap (fun m =>
      if !(m.id == msgHi.userId) then
        match resolveMemberSocket stTwo m.id with
        | none => none
        | some msid => some (Emit.message msid msgHi)
      else none) ∧
    (∀ e ∈ (messageHandler stTwo "s1" msgHi 7).2,
      ∃ s, e = Emit.message s msgHi) ∧
    (∀ m ∈ teamG.members, (m.id == msgHi.userId) = false →
      ∀ s, resolveMemberSocket stTwo m.id = some s →
        Emit.message s msgHi ∈ (messageHandler stTwo "s1" msgHi 7).2) :=
  group_message_unicast_spec stTwo "s1" msgHi 7 "group-1" teamG (by rfl)
    (by decide) (by rfl) (by decide)

/-! ## C6: sender-identity recovery -/

/-- A blank-identity message with no conversation id. -/
def msgNoChat : MessageData :=
  { chatId := none, username := "", userId := "x", text := "hi" }

/-- A blank-identity message into `group-1`. -/
def msgBlankGroup : MessageData :=
  { chatId := some "group-1", username := "", userId := "", text := "yo" }

/-- C6 counterexample: a message with a blank display name from a socket
that is not in the session registry and with *no* conversation id is
dropped outright — the handler returns with no emission at all (including
to the other connected user), contradicting the claim that no message
event is dropped because of an unresolvable sender identity. -/
theorem blank_identity_global_message_dropped_cex :
    mapGet stTwo.connectedUsers "s9" = none ∧
    messageHandler stTwo "s9" msgNoChat 7 = (stTwo, []) := by
  exact ⟨rfl, by decide⟩

/-- C6 (amended): with a blank display name the router substitutes the
identity bound to the sending socket in the session registry; if the socket
is unregistered it synthesizes the `Unknown User` placeholder identity and
still routes the message *only when a conversationId is present* — an
unregistered blank-identity message without a conversationId is dropped
with no delivery. -/
theorem message_identity_recovery_spec (st : ServerState) (sid : String)
    (msg : MessageData) (now : Nat)
    (hblank : ((jsTrim msg.username) == "") = true) :
    (∀ u, mapGet st.connectedUsers sid = some u →
      (u.username == "") = false →
      messageHandler st sid msg now =
        routeMessage st sid
          { msg with username := u.username, userId := u.id }) ∧
    (mapGet st.connectedUsers sid = none → ∀ cid, msg.chatId = some cid →
      messageHandler st sid msg now = routeMessage st sid
        { msg with
            username := (if msg.username == "" then "Unknown User"
              else msg.username),
            userId := (if msg.userId == "" then "unknown-" ++ toString now
              else msg.userId) }) ∧
    (mapGet st.connectedUsers sid = none → msg.chatId = none →
      messageHandler st sid msg now = (st, [])) := by
  refine ⟨?_, ?_, ?_⟩
  · intro u hu hname
    simp [messageHandler, fixIdentity, hblank, hu, hname]
  · intro hnone cid hcid
    simp [messageHandler, fixIdentity, hblank, hnone, hcid]
  · intro hnone hcid
    simp [messageHandler, fixIdentity, hblank, hnone, hcid]

/-- C6 witness: a blank-identity message from the unregistered socket `s9`
into `group-1` is routed with the synthesized placeholder identity. -/
theorem message_identity_recovery_spec_witness :
    messageHandler stTwo "s9" msgBlankGroup 7 = routeMessage stTwo "s9"
      { msgBlankGroup with
          username := (if msgBlankGroup.username == "" then "Unknown User"
            else msgBlankGroup.username),
          userId := (if msgBlankGroup.userId == "" then "unknown-" ++ toString 7
            else msgBlankGroup.userId) } := by
  have h := message_identity_recovery_spec stTwo "s9" msgBlankGroup 7
    (by decide)
  exact h.2.1 (by rfl) "group-1" (by rfl)

/-! ## C2: at most one live session per user id -/

theorem usersPairwise_symmRel :
    Symmetric (fun p q : String × UserInfo => p.1 ≠ q.1 ∧ p.2.id ≠ q.2.id) :=
  fun _ _ h => ⟨h.1.symm, h.2.symm⟩

theorem usersPairwise_unique {cu : List (String × UserInfo)}
    (h : usersPairwise cu) {p q : String × UserInfo}
    (hp : p ∈ cu) (hq : q ∈ cu) (hid : p.2.id = q.2.id) : p = q := by
  by_contra hne
  exact absurd hid
    (List.Pairwise.forall usersPairwise_symmRel h hp hq hne).2

theorem findLastSocketId_mem {cu : List (String × UserInfo)} {uid s : String}
    (h : findLastSocketId cu uid = some s) :
    ∃ u, (s, u) ∈ cu ∧ u.id = uid := by
  unfold findLastSocketId at h
  rcases Option.map_eq_some'.mp h with ⟨q, hq, hq1⟩
  have hqf := List.mem_of_mem_getLast? hq
  rcases List.mem_filter.mp hqf with ⟨hqcu, hqid⟩
  refine ⟨q.2, ?_, by simpa using hqid⟩
  have hqe : q = (s, q.2) := by rw [← hq1]
  rw [← hqe]
  exact hqcu

theorem findLastSocketId_none {cu : List (String × UserInfo)} {uid : String}
    (h : findLastSocketId cu uid = none) :
    ∀ p ∈ cu, p.2.id ≠ uid := by
  unfold findLastSocketId at h
  rw [Option.map_eq_none', List.getLast?_eq_none_iff,
    List.filter_eq_nil_iff] at h
  intro p hp hid
  exact (h p hp) (by simpa using hid)

theorem mapSet_usersPairwise {cu : List (String × UserInfo)} {sid : String}
    {v : UserInfo} (hpw : usersPairwise cu)
    (hpre : ∀ p ∈ cu, p.2.id = v.id → p.1 = sid) :
    usersPairwise (mapSet cu sid v) := by
  unfold usersPairwise mapSet
  by_cases hh : mapHas cu sid
  · rw [if_pos hh, List.pairwise_map]
    refine hpw.imp_of_mem ?_
    intro a b ha hb hab
    by_cases hak : (a.1 == sid) = true
    · by_cases hbk : (b.1 == sid) = true
      · have ha1 : a.1 = sid := by simpa using hak
        have hb1 : b.1 = sid := by simpa using hbk
        exact absurd (ha1.trans hb1.symm) hab.1
      · rw [if_pos hak, if_neg hbk]
        have hb1 : b.1 ≠ sid := by simpa using hbk
        refine ⟨fun he => hb1 he.symm, fun he => ?_⟩
        exact hb1 (hpre b hb he.symm)
    · by_cases hbk : (b.1 == sid) = true
      · rw [if_neg hak, if_pos hbk]
        have ha1 : a.1 ≠ sid := by simpa using hak
        refine ⟨ha1, fun he => ?_⟩
        exact ha1 (hpre a ha he)
      · rw [if_neg hak, if_neg hbk]
        exact hab
  · rw [if_neg hh, List.pairwise_append]
    refine ⟨hpw, List.pairwise_singleton _ _, ?_⟩
    intro a ha b hb
    have hb1 : b = (sid, v) := by simpa using hb
    have hak : a.1 ≠ sid := by
      intro he
      apply hh
      unfold mapHas
      rw [List.any_eq_true]
      exact ⟨a, ha, by simpa using he⟩
    subst hb1
    exact ⟨hak, fun he => hak (hpre a ha he)⟩

theorem register_cleanup_precond {cu : List (String × UserInfo)}
    {uid : String} (sid : String) (hpw : usersPairwise cu) :
    ∀ p ∈ (match findLastSocketId cu uid with
      | some esid => if esid == sid then cu else mapDelete cu esid
      | none => cu), p.2.id = uid → p.1 = sid := by
  cases hfind : findLastSocketId cu uid with
  | none =>
    intro p hp hid
    exact absurd hid (findLastSocketId_none hfind p hp)
  | some esid =>
    cases he : (esid == sid) with
    | true =>
      simp only [if_pos he]
      intro p hp hid
      rcases findLastSocketId_mem hfind with ⟨u, hu, huid⟩
      have hpe : p = (esid, u) :=
        usersPairwise_unique hpw hp hu (by rw [hid, huid])
      rw [hpe]
      simpa using he
    | false =>
      simp only [he]
      intro p hp hid
      rcases List.mem_filter.mp hp with ⟨hpcu, hpk⟩
      rcases findLastSocketId_mem hfind with ⟨u, hu, huid⟩
      have hpe : p = (esid, u) :=
        usersPairwise_unique hpw hpcu hu (by rw [hid, huid])
      rw [hpe] at hpk
      simp at hpk

theorem register_cleanup_pairwise {cu : List (String × UserInfo)}
    {uid : String} (sid : String) (hpw : usersPairwise cu) :
    usersPairwise (match findLastSocketId cu uid with
      | some esid => if esid == sid then cu else mapDelete cu esid
      | none => cu) := by
  cases hfind : findLastSocketId cu uid with
  | none => exact hpw
  | some esid =>
    cases he : (esid == sid) with
    | true =>
      simp only [if_pos he]
      exact hpw
    | false =>
      simp only [he]
      exact List.Pairwise.sublist (List.filter_sublist cu) hpw

theorem joinHandler_connectedUsers (st : ServerState)
    (sid uid uname : String) (now : Nat)
    (hval : (uid == "" || (jsTrim uname) == "") = false) :
    ((joinHandler st sid uid uname now).1).connectedUsers =
      mapSet (match findLastSocketId st.connectedUsers uid with
        | some esid => if esid == sid then st.connectedUsers
            else mapDelete st.connectedUsers esid
        | none => st.connectedUsers) sid
        { id := uid, username := jsTrim uname, socketId := sid,
          joinedAt := now } := by
  unfold joinHandler
  cases hfind : findLastSocketId st.connectedUsers uid with
  | none => simp [hval, hfind]
  | some esid =>
    cases he : (esid == sid) with
    | true => simp [hval, hfind, he]
    | false => simp [hval, hfind, he]

theorem joinHandler_sockets (st : ServerState)
    (sid uid uname : String) (now : Nat)
    (hval : (uid == "" || (jsTrim uname) == "") = false) :
    ((joinHandler st sid uid uname now).1).sockets =
      (match findLastSocketId st.connectedUsers uid with
        | some esid => if esid == sid then st.sockets
            else st.sockets.filter (fun s => !(s == esid))
        | none => st.sockets) := by
  unfold joinHandler
  cases hfind : findLastSocketId st.connectedUsers uid with
  | none => simp [hval, hfind]
  | some esid =>
    cases he : (esid == sid) with
    | true => simp [hval, hfind, he]
    | false => simp [hval, hfind, he]

theorem joinHandler_pairwise (st : ServerState) (sid uid uname : String)
    (now : Nat) (hpw : usersPairwise st.connectedUsers) :
    usersPairwise ((joinHandler st sid uid uname now).1).connectedUsers := by
  cases hval : (uid == "" || (jsTrim uname) == "") with
  | true =>
    have hsame : ((joinHandler st sid uid uname now).1).connectedUsers =
        st.connectedUsers := by
      unfold joinHandler
      simp [hval]
    rw [hsame]
    exact hpw
  | false =>
    rw [joinHandler_connectedUsers st sid uid uname now hval]
    exact mapSet_usersPairwise (register_cleanup_pairwise sid hpw)
      (register_cleanup_precond sid hpw)

theorem mapHas_mapSet_mapDelete {α : Type} (m : List (String × α))
    (esid sid : String) (v : α) (hne : esid ≠ sid) :
    mapHas (mapSet (mapDelete m esid) sid v) esid = false := by
  apply Bool.eq_false_iff.mpr
  intro h
  unfold mapHas at h
  rcases List.any_eq_true.mp h with ⟨p, hp, hpk⟩
  have hpe : p.1 = esid := by simpa using hpk
  rcases mem_mapSet hp with rfl | ⟨hpm, _⟩
  · exact hne hpe.symm
  · rcases List.mem_filter.mp hpm with ⟨_, hflt⟩
    rw [hpe] at hflt
    simp at hflt

theorem contains_filter_ne (l : List String) (esid : String) :
    (l.filter (fun s => !(s == esid))).contains esid = false := by
  apply Bool.eq_false_iff.mpr
  intro h
  have hmem : esid ∈ l.filter (fun s => !(s == esid)) := List.elem_iff.mp h
  rcases List.mem_filter.mp hmem with ⟨_, hpred⟩
  simp at hpred

/-- C2: the session registry keeps at most one live session per `userId`:
(1) after any sequence of `join` events from the empty state, distinct
registry entries have distinct socket ids and distinct user ids, and
(2) a successful register stores the new session under the new socket id,
makes it the *only* entry for that `userId`, and — when a different live
session for the same `userId` existed — evicts it from the registry and
force-disconnects its socket. -/
theorem register_at_most_one_live_session :
    (∀ evs : List JoinEv,
      usersPairwise (applyJoins emptyState evs).connectedUsers) ∧
    (∀ (st : ServerState) (sid uid uname : String) (now : Nat),
      usersPairwise st.connectedUsers →
      (uid == "" || (jsTrim uname) == "") = false →
      usersPairwise ((joinHandler st sid uid uname now).1).connectedUsers ∧
      mapGet ((joinHandler st sid uid uname now).1).connectedUsers sid =
        some { id := uid, username := jsTrim uname, socketId := sid,
               joinedAt := now } ∧
      (∀ p ∈ ((joinHandler st sid uid uname now).1).connectedUsers,
        p.2.id = uid →
        p = (sid, { id := uid, username := jsTrim uname, socketId := sid,
                    joinedAt := now })) ∧
      (∀ esid, findLastSocketId st.connectedUsers uid = some esid →
        (esid == sid) = false →
        mapHas ((joinHandler st sid uid uname now).1).connectedUsers esid
          = false ∧
        ((joinHandler st sid uid uname now).1).sockets.contains esid
          = false)) := by
  constructor
  · have hstep : ∀ (evs : List JoinEv) (st : ServerState),
        usersPairwise st.connectedUsers →
        usersPairwise (applyJoins st evs).connectedUsers := by
      intro evs
      induction evs with
      | nil =>
        intro st h
        exact h
      | cons e t ih =>
        intro st h
        exact ih _ (joinHandler_pairwise st e.sid e.userId e.username e.now h)
    intro evs
    exact hstep evs emptyState List.Pairwise.nil
  · intro st sid uid uname now hpw hval
    refine ⟨joinHandler_pairwise st sid uid uname now hpw, ?_, ?_, ?_⟩
    · rw [joinHandler_connectedUsers st sid uid uname now hval]
      exact mapGet_mapSet_self _ _ _
    · rw [joinHandler_connectedUsers st sid uid uname now hval]
      intro p hp hid
      rcases mem_mapSet hp with rfl | ⟨hpm, hps⟩
      · rfl
      · exact absurd (register_cleanup_precond sid hpw p hpm hid) hps
    · intro esid hfind he
      have hne : esid ≠ sid := by simpa using he
      constructor
      · rw [joinHandler_connectedUsers st sid uid uname now hval, hfind]
        simp only [he]
        exact mapHas_mapSet_mapDelete st.connectedUsers esid sid _ hne
      · rw [joinHandler_sockets st sid uid uname now hval, hfind]
        simp only [he]
        exact contains_filter_ne st.sockets esid

/-- C2 witness: Alice re-registers from a new socket `s3` in `stTwo`; the
registry stays duplicate-free, `s3` holds her session, it is the only entry
for `"a"`, and the old socket `s1` is evicted and force-disconnected. -/
theorem register_at_most_one_live_session_witness :
    usersPairwise ((joinHandler stTwo "s3" "a" "Al" 5).1).connectedUsers ∧
    mapGet ((joinHandler stTwo "s3" "a" "Al" 5).1).connectedUsers "s3" =
      some { id := "a", username := jsTrim "Al", socketId := "s3",
             joinedAt := 5 } ∧
    (∀ p ∈ ((joinHandler stTwo "s3" "a" "Al" 5).1).connectedUsers,
      p.2.id = "a" →
      p = ("s3", { id := "a", username := jsTrim "Al", socketId := "s3",
                   joinedAt := 5 })) ∧
    (∀ esid, findLastSocketId stTwo.connectedUsers "a" = some esid →
      (esid == "s3") = false →
      mapHas ((joinHandler stTwo "s3" "a" "Al" 5).1).connectedUsers esid
        = false ∧
      ((joinHandler stTwo "s3" "a" "Al" 5).1).sockets.contains esid
        = false) :=
  register_at_most_one_live_session.2 stTwo "s3" "a" "Al" 5
    (by unfold usersPairwise; decide) (by decide)

/-! ## C9: the direct-conversation id is symmetric -/

theorem charListLe_total (a b : List Char) :
    charListLe a b = true ∨ charListLe b a = true := by
  induction a generalizing b with
  | nil => left; rfl
  | cons x xs ih =>
    cases b with
    | nil => right; rfl
    | cons y ys =>
      unfold charListLe
      rcases Nat.lt_trichotomy x.toNat y.toNat with h | h | h
      · left; rw [if_pos h]
      · rw [if_neg (by omega), if_neg (by omega), if_neg (by omega),
          if_neg (by omega)]
        exact ih ys
      · right; rw [if_pos h]

theorem charListLe_antisymm (a b : List Char) (h1 : charListLe a b = true)
    (h2 : charListLe b a = true) : a = b := by
  induction a generalizing b with
  | nil =>
    cases b with
    | nil => rfl
    | cons y ys =>
      unfold charListLe at h2
      exact absurd h2 (by simp)
  | cons x xs ih =>
    cases b with
    | nil =>
      unfold charListLe at h1
      exact absurd h1 (by simp)
    | cons y ys =>
      unfold charListLe at h1 h2
      rcases Nat.lt_trichotomy x.toNat y.toNat with h | h | h
      · rw [if_neg (by omega), if_pos h] at h2
        exact absurd h2 (by simp)
      · rw [if_neg (by omega), if_neg (by omega)] at h1
        rw [if_neg (by omega), if_neg (by omega)] at h2
        have hv : x.val = y.val := UInt32.ext h
        have hxy : x = y := Char.ext hv
        rw [hxy, ih ys h1 h2]
      · rw [if_neg (by omega), if_pos h] at h1
        exact absurd h1 (by simp)

/-- C9: `directChatId` is a symmetric, pure function of the two
participant user ids: sorting the two-element array before joining makes
`directChatId a b = directChatId b a` for all `a`, `b`. -/
theorem directChatId_symm (a b : String) : directChatId a b = directChatId b a := by
  unfold directChatId
  cases hab : strLe a b with
  | true =>
    cases hba : strLe b a with
    | true =>
      have hd := charListLe_antisymm a.data b.data hab hba
      have heq : a = b := String.ext hd
      rw [heq]
    | false => simp
  | false =>
    cases hba : strLe b a with
    | true => simp
    | false =>
      rcases charListLe_total a.data b.data with h | h
      · rw [show charListLe a.data b.data = strLe a b from rfl, hab] at h
        exact absurd h (by simp)
      · rw [show charListLe b.data a.data = strLe b a from rfl, hba] at h
        exact absurd h (by simp)

end SocketChat
